import Mathlib

/-!
Verification of the `hpc-interact` step-sequencing and command-generation
model (file `hpc_interact.py`).  The Python classes `Step` and `Scripter`
are embedded as Lean structures, the builder methods as pure functions on
those structures, and the credential-resolution routine as a pure function
over an abstract read-only file system (`String → Option (List String)`,
mapping a path to the lines of the file stored there, if any).

Python objects are mutated in place, so an exception that escapes a method
leaves the partial mutations behind.  Fallible methods therefore return a
`PyResult`, whose `err` constructor carries the state of the object at the
moment the exception was raised.
-/

/-- Value of a dynamically typed Python argument: `None`, a string, or an
integer.  `truthy` is Python truthiness, `render` is Python `str()`. -/
inductive PyVal where
  | none
  | str (s : String)
  | int (n : Int)
deriving DecidableEq, Repr

def PyVal.truthy : PyVal → Bool
  | .none => false
  | .str s => s ≠ ""
  | .int n => n ≠ 0

def PyVal.render : PyVal → String
  | .none => "None"
  | .str s => s
  | .int n => toString n

/-- Python `str.isnumeric`, modelled for ASCII text (every string the
claims exercise is ASCII): nonempty and made of decimal digits only. -/
def pyIsNumeric (s : String) : Bool := !s.data.isEmpty && s.data.all Char.isDigit

/-- Python `" ".join`, as used by `Scripter.basic_step`. -/
def joinSpace : List String → String
  | [] => ""
  | [x] => x
  | x :: xs => x ++ " " ++ joinSpace xs

/-- Python `str.replace(old, new)` on character lists: replaces leftmost,
non-overlapping occurrences of `old` by `new`.  The fuel argument is the
length of the remaining input, which makes the recursion structural. -/
def pyReplaceAux : Nat → List Char → List Char → List Char → List Char
  | 0, s, _, _ => s
  | Nat.succ fuel, s, old, new =>
    match s with
    | [] => []
    | c :: rest =>
      if old ≠ [] ∧ old.isPrefixOf (c :: rest) then
        new ++ pyReplaceAux fuel ((c :: rest).drop old.length) old new
      else
        c :: pyReplaceAux fuel rest old new

def pyReplace (s old new : List Char) : List Char := pyReplaceAux s.length s old new

/-- Python `str.replace` on strings (`old` nonempty everywhere it is used). -/
def pyReplaceStr (s old new : String) : String := ⟨pyReplace s.data old.data new.data⟩

/-- Python substring test `pat in l` on character lists. -/
def infixOf (pat : List Char) : List Char → Bool
  | [] => pat.isEmpty
  | c :: rest => pat.isPrefixOf (c :: rest) || infixOf pat rest

/-- Python `needle in hay` on strings. -/
def strIn (needle hay : String) : Bool := infixOf needle.data hay.data

/-- Python `str.split(c)` for a one-character separator, accumulating the
current segment in reverse. -/
def splitOnCharAux (c : Char) : List Char → List Char → List String
  | [], acc => [⟨acc.reverse⟩]
  | x :: rest, acc =>
    if x = c then ⟨acc.reverse⟩ :: splitOnCharAux c rest []
    else splitOnCharAux c rest (x :: acc)

def splitOnChar (c : Char) (s : String) : List String := splitOnCharAux c s.data []

/-- Python `str.lower`, for the ASCII text the claims exercise. -/
def toLowerStr (s : String) : String := ⟨s.data.map Char.toLower⟩

/-- Python `str.strip()`: leading and trailing whitespace removed. -/
def pyStrip (s : String) : String :=
  ⟨((s.data.dropWhile Char.isWhitespace).reverse.dropWhile Char.isWhitespace).reverse⟩

/-- Joining path components with `/`, as `str(Path(...))` renders them. -/
def joinSlash : List String → String
  | [] => ""
  | [x] => x
  | x :: xs => x ++ "/" ++ joinSlash xs

/-- Components of a POSIX `pathlib.Path`: empty and `"."` segments are
dropped by `Path`'s normalization. -/
def pathParts (p : String) : List String :=
  (splitOnChar '/' p).filter (fun s => s ≠ "" && s ≠ ".")

def isAbs (p : String) : Bool :=
  match p.data with
  | '/' :: _ => true
  | _ => false

/-- Python `Path("~") in list(path.parents)`: true exactly when the path is
relative, its first component is `"~"`, and there is at least one further
component (the parents of `a/b/c` are `a/b`, `a`, `.`). -/
def tildeInParents (p : String) : Bool :=
  !isAbs p &&
    (match pathParts p with
     | "~" :: _ :: _ => true
     | _ => false)

/-- Python `str(Path(p))`: the normalized path string. -/
def pathStr (p : String) : String :=
  let parts := pathParts p
  if isAbs p then "/" ++ joinSlash parts
  else if parts.isEmpty then "." else joinSlash parts

/-- Python `Path(p).name`, modelled for the simple relative paths the code
builds: the last component (empty for an empty path). -/
def pathName (p : String) : String := (pathParts p).getLastD ""

/-- Exceptions the embedded methods raise: `TypeError` from
`set_permissions`, bare `Exception` elsewhere. -/
inductive PyErr where
  | typeError (msg : String)
  | exception (msg : String)
deriving DecidableEq, Repr

/-- Result of a fallible method.  `err` carries the state of the mutated
object at the moment the exception escaped. -/
inductive PyResult (α : Type) where
  | ok (st : α)
  | err (e : PyErr) (st : α)
deriving DecidableEq, Repr

def PyResult.getSt {α : Type} : PyResult α → α
  | .ok st => st
  | .err _ st => st

def PyResult.isErr {α : Type} : PyResult α → Bool
  | .ok _ => false
  | .err _ _ => true

/-- The Python `Step` class: it stores the rendered `expect` directive, the
rendered `send` directive, and the (unused) `mode` and `quote` arguments. -/
@[ext] structure Step where
  expectation : String
  action : String
  mode : String
  quote : String
deriving DecidableEq, Repr

/-- `Step.__init__`: with the double-quote style the prompt is wrapped in
plain double quotes, otherwise in backslash-escaped single quotes; the
action always sends the command followed by a newline. -/
def mkStep (expct inp mode quote : String) : Step :=
  { expectation :=
      if quote = "\"" then "expect \"" ++ expct ++ "\""
      else "expect \\\x27" ++ expct ++ "\\\x27"
    action := "send \"" ++ inp ++ "\n\""
    mode := mode
    quote := quote }

/-- `Step.__repr__(sep)`: expectation and action, each followed by `sep`. -/
def stepRepr (st : Step) (sep : String) : String :=
  st.expectation ++ sep ++ st.action ++ sep

/-- The `Scripter` session state.  `password` is the private
`__password`; `pw_steps` is the private `__pw_steps`; `open_` is the
attribute `open` (a keyword in Lean); `quote` is only ever assigned in ssh
mode, hence an `Option`.  Credential resolution performed by `__init__`
(lines 87-90) is modelled separately by `getCredentials` below. -/
@[ext] structure Scripter where
  username : String
  password : String
  group : PyVal
  site : String
  mode : String
  expect : String
  quote : Option String
  open_ : String
  entry : String
  close : String
  actions : List Step
  pw_steps : List Step
deriving DecidableEq, Repr

/-- The line `if not expect: expect = self.expect` of `add_step`: a falsy
(`None` or empty) `expect` argument falls back to the default prompt. -/
def effExpect (deflt : String) : Option String → String
  | Option.none => deflt
  | some s => if s = "" then deflt else s

/-- `Scripter.add_step`: the new `Step` is created with the `Step`
defaults `mode="sftp"` and `quote='"'` and appended. -/
def Scripter.add_step (sc : Scripter) (inp : String) (expct : Option String) : Scripter :=
  { sc with actions := sc.actions ++ [mkStep (effExpect sc.expect expct) inp "sftp" "\""] }

/-- The command string `basic_step` builds: the truthy arguments are
rendered with `str()` and joined with spaces. -/
def basicCmd (commands : List PyVal) : String :=
  joinSpace ((commands.filter PyVal.truthy).map PyVal.render)

/-- `Scripter.basic_step`: with a nonempty argument tuple, appends one step
running the joined command. -/
def Scripter.basic_step (sc : Scripter) (commands : List PyVal) (expct : Option String) : Scripter :=
  if commands = [] then sc
  else sc.add_step (basicCmd commands) expct

/-- `Scripter.is_empty`: returns `bool(self.actions)`. -/
def Scripter.is_empty (sc : Scripter) : Bool := !sc.actions.isEmpty

/-- `Scripter.clear`. -/
def Scripter.clear (sc : Scripter) : Scripter := { sc with actions := [] }

/-- `Scripter.get_steps`: an empty `step_list` argument falls back to
`self.actions`; the chosen steps are rendered and concatenated. -/
def Scripter.get_steps (sc : Scripter) (step_list : List Step) (sep : String) : String :=
  let l := if step_list.isEmpty then sc.actions else step_list
  String.join (l.map (fun st => stepRepr st sep))

/-- `Scripter.__full_command`: opening boilerplate, login entry, the two
password steps, the accumulated steps, closing boilerplate. -/
def Scripter.full_command (sc : Scripter) : String :=
  sc.open_ ++ sc.entry ++ sc.get_steps sc.pw_steps "\n" ++ sc.get_steps [] "\n" ++ sc.close

/-- `Scripter.get_actions`: each action string with the leading
`send "` markup and every double quote removed (`strip("")` is a no-op). -/
def Scripter.get_actions (sc : Scripter) : List String :=
  sc.actions.map (fun st => pyReplaceStr (pyReplaceStr st.action "send \"" "") "\"" "")

/-- `Scripter.preview_steps`: after a header line, prints one
`(index, action)` tuple per accumulated step, in order; modelled as the
list of printed tuples. -/
def Scripter.preview_steps (sc : Scripter) : List (Nat × String) :=
  sc.get_actions.enum

/-- `Scripter.run` for the two supported modes: appends the exit step and
hands the serialized script to `os.system`; modelled as the mutated
scripter together with the text handed over.  Any other mode hits an
unbound local variable (`UnboundLocalError`), modelled as `none`. -/
def Scripter.run (sc : Scripter) : Option (Scripter × String) :=
  if sc.mode = "sftp" then
    let sc2 := sc.add_step "quit" Option.none
    some (sc2, sc2.full_command)
  else if sc.mode = "ssh" then
    let sc2 := sc.add_step "exit" Option.none
    some (sc2, sc2.full_command)
  else Option.none

/-- `Scripter.cwd`: `lcd` is only legal in sftp mode; otherwise a plain
`cd` step is appended. -/
def Scripter.cwd (sc : Scripter) (dir : String) (lcl : Bool) : PyResult Scripter :=
  if lcl then
    if sc.mode = "sftp" then
      .ok (sc.basic_step [PyVal.str "lcd", PyVal.str dir] Option.none)
    else .err (.exception "lcd only works with sftp") sc
  else .ok (sc.basic_step [PyVal.str "cd", PyVal.str dir] Option.none)

/-- Message of the `TypeError` raised by `set_permissions` (at the raise
site the offending value has already been converted to `str`). -/
def failMsg (n s : String) : String :=
  "Invalid input (" ++ s ++ ", type:<class \x27str\x27>) for " ++ n ++
    ". Numeric values must be used over sftp."

/-- The validation loop of `set_permissions` over the ordered
`{"group": ..., "octal": ...}` dict: an `int` is first converted to its
decimal string; a nonempty non-numeric string raises. -/
def findFail : List (String × PyVal) → Option String
  | [] => Option.none
  | (n, x) :: rest =>
    let x2 := match x with
      | PyVal.int k => PyVal.str (toString k)
      | v => v
    match x2 with
    | PyVal.str s => if !pyIsNumeric s && s ≠ "" then some (failMsg n s) else findFail rest
    | _ => findFail rest

/-- `Scripter.set_permissions` with `files` already normalized to a list
(the code turns a single string into a one-element list).  The effective
group is assigned to `self.group` before validation, so it survives an
escaping `TypeError`. -/
def Scripter.set_permissions (sc : Scripter) (files : List String) (grp octal : PyVal) :
    PyResult Scripter :=
  let sc := if !sc.group.truthy ∧ grp ≠ PyVal.str "" then { sc with group := grp } else sc
  let checkErr : Option String :=
    if sc.mode = "sftp" then findFail [("group", sc.group), ("octal", octal)]
    else Option.none
  match checkErr with
  | some m => .err (.typeError m) sc
  | Option.none =>
    .ok (files.foldl (fun s f =>
      let s := s.basic_step [PyVal.str "chmod", octal, PyVal.str f] Option.none
      if s.group.truthy then
        s.basic_step [PyVal.str "chgrp", s.group, PyVal.str f] Option.none
      else s) sc)

/-- Python truthiness of the optional `outdir` argument. -/
def outdirTruthy : Option String → Bool
  | Option.none => false
  | some d => d ≠ ""

def optVal : Option String → PyVal
  | Option.none => PyVal.none
  | some s => PyVal.str s

/-- `Scripter.transfer`: sftp-only; an `outdir` adds a directory-change
step first; the final step joins the truthy arguments (including a literal
newline argument) with spaces. -/
def Scripter.transfer (sc : Scripter) (trans_type file : String) (outdir : Option String)
    (lcl : Bool) (new_name : Option String) (options : List String) : PyResult Scripter :=
  if sc.mode ≠ "sftp" then
    .err (.exception ("\x27" ++ trans_type ++ "\x27 can only be used with mode=\x27sftp\x27")) sc
  else
    let afterCd : PyResult Scripter :=
      if outdirTruthy outdir then sc.cwd (outdir.getD "") lcl else .ok sc
    match afterCd with
    | .err e s => .err e s
    | .ok sc1 =>
      if options ≠ [] then
        .ok (sc1.basic_step
          [PyVal.str trans_type, PyVal.str ("-" ++ String.join options),
           PyVal.str file, optVal new_name, PyVal.str "\n"] Option.none)
      else
        .ok (sc1.basic_step
          [PyVal.str trans_type, PyVal.str file, optVal new_name, PyVal.str "\n"] Option.none)

/-- `Scripter.get`: delegates to `transfer` with `local=True`. -/
def Scripter.get (sc : Scripter) (file : String) (outdir : Option String)
    (new_name : Option String) (options : List String) : PyResult Scripter :=
  sc.transfer "get" file outdir true new_name options

/-- `Scripter.put`: a truthy `outdir` first appends the `mkdir` step, then
delegates to `transfer` with `local=False`; with the flag set it chains
`set_permissions` on `outdir/file-name` (a `None` outdir would make
`Path(None)` raise a `TypeError` there). -/
def Scripter.put (sc : Scripter) (file : String) (outdir : Option String)
    (new_name : Option String) (options : List String) (set_perms : Bool) : PyResult Scripter :=
  let sc1 := if outdirTruthy outdir then
      sc.add_step ("mkdir " ++ outdir.getD "") Option.none
    else sc
  match sc1.transfer "put" file outdir false new_name options with
  | .err e s => .err e s
  | .ok sc2 =>
    if set_perms then
      match outdir with
      | some d => sc2.set_permissions [pathStr (d ++ "/" ++ pathName file)] PyVal.none (PyVal.str "0664")
      | Option.none => .err (.typeError "argument should be a str or an os.PathLike object where __fspath__ returns a str, not <class \x27NoneType\x27>") sc2
    else .ok sc2

/-- `Scripter.__init__`, lines 91-103: the script-building state once the
credentials are resolved.  In sftp mode the prompt is `sftp>` and the
`quote` attribute is never assigned; otherwise the prompt is the username.
The two fixed password steps are built with the `Step` defaults. -/
def mkScripter (username password site mode : String) (group : PyVal) : Scripter :=
  { username := username
    password := password
    group := group
    site := site
    mode := mode
    expect := if mode = "sftp" then "sftp>" else username
    quote := if mode = "sftp" then Option.none else some "\x27"
    open_ := "expect << !\nset timeout -1\nspawn "
    entry := mode ++ " " ++ username ++ "@" ++ site ++ "\n"
    close := "expect eof\n!\n"
    actions := []
    pw_steps :=
      [mkStep "Password:" password "sftp" "\"",
       mkStep "Passcode or option (1-3):" "1" "sftp" "\""] }

/-- An arbitrary sequence of `add_step` calls (every builder funnels its
appended steps through `add_step`). -/
def addSteps (sc : Scripter) (l : List (String × Option String)) : Scripter :=
  l.foldl (fun s pr => s.add_step pr.1 pr.2) sc

/-- Credential-resolution state: the attributes `get_credentials` reads and
writes.  `config` is the path of the config file, when set. -/
@[ext] structure CredST where
  username : PyVal
  password : PyVal
  group : PyVal
  site : PyVal
  config : Option String
deriving DecidableEq, Repr

/-- Outcome of `get_credentials` over a read-only file system: a normal
return carrying the list of `(path, lines)` writes performed by
`write_credentials`; a transfer of control to the interactive
`request_credentials` prompt; the headless `exit(1)`; a raised exception;
or exhaustion of the recursion fuel. -/
inductive CredOutcome where
  | ok (st : CredST) (writes : List (String × List String))
  | prompt (st : CredST)
  | fatal (st : CredST)
  | raised (msg : String) (st : CredST)
  | spin
deriving DecidableEq, Repr

/-- `Scripter._get_credential_if_present`: a substring match of the
attribute name in the lowercased line sets the attribute to the trimmed
text after the last `=`.  The code only ever passes the four names below
(`setattr` is generic in Python). -/
def getCredIfPresent (st : CredST) (line cred : String) : CredST :=
  if strIn cred (toLowerStr line) then
    let attr := pyStrip ((splitOnChar '=' line).getLastD "")
    if cred = "password" then { st with password := PyVal.str attr }
    else if cred = "username" then { st with username := PyVal.str attr }
    else if cred = "group" then { st with group := PyVal.str attr }
    else if cred = "site" then { st with site := PyVal.str attr }
    else st
  else st

/-- `Scripter.read_credentials`: each stripped line is matched against the
four credential names in order. -/
def readCredentials (st : CredST) (lines : List String) : CredST :=
  lines.foldl (fun s line =>
    ["username", "password", "group", "site"].foldl
      (fun s2 cred => getCredIfPresent s2 (pyStrip line) cred) s) st

/-- The two lines `Scripter.write_credentials` writes (after creating the
parent directories); `None` renders as the text `None` in the f-string. -/
def credLines (st : CredST) : List String :=
  ["username=" ++ st.username.render, "password=" ++ st.password.render]

/-- The trailing save check of `get_credentials`:
`if save and not self.config.exists() or overwrite`. -/
def writeCheck (fs : String → Option (List String)) (st : CredST) (save ow : Bool)
    (ws : List (String × List String)) : CredOutcome :=
  let cfg := st.config.getD ""
  if (save && (fs cfg).isNone) || ow then .ok st (ws ++ [(cfg, credLines st)])
  else .ok st ws

/-- `Scripter.get_credentials` over a read-only file system `fs` and home
directory `home`.  The `~`-handling follows the code: only a leading `~`
with a further component puts `Path("~")` among the parents, in which case
the path's first character check either raises or expands every `~`.
A missing username or password triggers a read of an existing config file
followed by the recursive verification call (with default arguments);
a missing file prompts, or exits fatally when headless.  The recursion is
fuelled; real executions use at most one nested call unless the config
file itself is missing a value, in which case Python recurses without
bound (modelled by `spin`). -/
def getCredentials : Nat → (String → Option (List String)) → String → CredST →
    Bool → Bool → Bool → CredOutcome
  | 0, _, _, _, _, _, _ => .spin
  | Nat.succ fuel, fs, home, st, save, ow, headless =>
    let resolved : Except String String :=
      match st.config with
      | some p =>
        if tildeInParents p then
          if (pathStr p).front ≠ '~' then Except.error "Config path looks weird"
          else Except.ok (pyReplaceStr (pathStr p) "~" home)
        else Except.ok p
      | Option.none => Except.ok (home ++ "/.pooPatrol/hpc_config.txt")
    match resolved with
    | Except.error m => .raised m st
    | Except.ok cfg =>
      let st1 : CredST := { st with config := some cfg }
      if !st1.username.truthy || !st1.password.truthy then
        match fs cfg with
        | some lines =>
          match getCredentials fuel fs home (readCredentials st1 lines) true false false with
          | .ok st3 ws => writeCheck fs st3 save ow ws
          | other => other
        | Option.none =>
          if headless then .fatal st1 else .prompt st1
      else writeCheck fs st1 save ow []

/-- Effective group used by `set_permissions`: the argument replaces a
falsy `self.group` unless the argument is the empty string. -/
def effGroup (scGroup grp : PyVal) : PyVal :=
  if !scGroup.truthy ∧ grp ≠ PyVal.str "" then grp else scGroup

/-- Whether a value trips the sftp numeric check of `set_permissions`:
after rendering an `int` in decimal, a nonempty non-numeric string. -/
def sftpCheckFails : PyVal → Bool
  | PyVal.none => false
  | PyVal.int k => !pyIsNumeric (toString k) && toString k ≠ ""
  | PyVal.str s => !pyIsNumeric s && s ≠ ""

/-- The steps a successful sftp `set_permissions` call appends: per file a
`chmod` step and, for a truthy effective group, a `chgrp` step. -/
def permSteps (expct : String) (eff octal : PyVal) (files : List String) : List Step :=
  files.flatMap (fun f =>
    mkStep expct (basicCmd [PyVal.str "chmod", octal, PyVal.str f]) "sftp" "\"" ::
    (if eff.truthy then
      [mkStep expct (basicCmd [PyVal.str "chgrp", eff, PyVal.str f]) "sftp" "\""]
     else []))

/-! ## Helper lemmas -/

theorem pyReplaceAux_nil (fuel : Nat) (old new : List Char) :
    pyReplaceAux fuel [] old new = [] := by
  cases fuel <;> rfl

theorem pyReplaceAux_stable (fuel : Nat) : ∀ (fuel2 : Nat) (s old new : List Char),
    s.length ≤ fuel → s.length ≤ fuel2 →
    pyReplaceAux fuel s old new = pyReplaceAux fuel2 s old new := by
  induction fuel with
  | zero =>
    intro fuel2 s old new h1 _
    have hs : s = [] := List.eq_nil_of_length_eq_zero (Nat.le_zero.mp h1)
    subst hs
    simp [pyReplaceAux_nil]
  | succ n ih =>
    intro fuel2 s old new h1 h2
    cases s with
    | nil => simp [pyReplaceAux_nil]
    | cons c rest =>
      cases fuel2 with
      | zero => simp at h2
      | succ m =>
        simp only [List.length_cons] at h1 h2
        simp only [pyReplaceAux]
        by_cases hcond : old ≠ [] ∧ old.isPrefixOf (c :: rest)
        · rw [if_pos hcond, if_pos hcond]
          have holdlen : 1 ≤ old.length := List.length_pos.mpr hcond.1
          have hdrop : ((c :: rest).drop old.length).length ≤ n := by
            simp only [List.length_drop, List.length_cons]
            omega
          have hdrop2 : ((c :: rest).drop old.length).length ≤ m := by
            simp only [List.length_drop, List.length_cons]
            omega
          rw [ih m _ old new hdrop hdrop2]
        · rw [if_neg hcond, if_neg hcond]
          have hr : rest.length ≤ n := by omega
          have hr2 : rest.length ≤ m := by omega
          rw [ih m rest old new hr hr2]

theorem pyReplace_cons_neg (c : Char) (rest old new : List Char)
    (h : ¬(old ≠ [] ∧ old.isPrefixOf (c :: rest))) :
    pyReplace (c :: rest) old new = c :: pyReplace rest old new := by
  show pyReplaceAux (rest.length + 1) (c :: rest) old new = _
  simp only [pyReplaceAux]
  rw [if_neg h]
  rfl

theorem pyReplace_headmatch (old t new : List Char) (h : old ≠ []) :
    pyReplace (old ++ t) old new = new ++ pyReplace t old new := by
  obtain ⟨o, os, rfl⟩ : ∃ o os, old = o :: os := by
    cases old with
    | nil => exact absurd rfl h
    | cons o os => exact ⟨o, os, rfl⟩
  show pyReplaceAux ((o :: os) ++ t).length ((o :: os) ++ t) (o :: os) new = _
  have hlen : ((o :: os) ++ t).length = (os ++ t).length + 1 := by simp
  rw [hlen]
  show pyReplaceAux ((os ++ t).length + 1) (o :: (os ++ t)) (o :: os) new = _
  simp only [pyReplaceAux]
  have hpre : (o :: os).isPrefixOf (o :: (os ++ t)) := by
    rw [List.isPrefixOf_iff_prefix]
    exact ⟨t, by simp⟩
  rw [if_pos ⟨List.cons_ne_nil o os, hpre⟩]
  have hdrop : (o :: (os ++ t)).drop (o :: os).length = t := by
    show ((o :: os) ++ t).drop (o :: os).length = t
    exact List.drop_left _ _
  rw [hdrop]
  have : pyReplaceAux (os ++ t).length t (o :: os) new = pyReplaceAux t.length t (o :: os) new := by
    apply pyReplaceAux_stable
    · simp
    · exact Nat.le_refl _
  rw [this]
  rfl

theorem pyReplace_no_occ (old new : List Char) :
    ∀ (t : List Char), ¬old <:+: t → pyReplace t old new = t := by
  intro t
  induction t with
  | nil => intro _; rfl
  | cons c rest ih =>
    intro h
    have hpre : ¬old.isPrefixOf (c :: rest) := by
      intro hp
      exact h ((List.isPrefixOf_iff_prefix.mp hp).isInfix)
    rw [pyReplace_cons_neg c rest old new (fun hc => hpre hc.2)]
    rw [ih (fun hin => h (List.infix_cons hin))]

theorem pyReplace_single (q : Char) : ∀ (u : List Char),
    pyReplace u [q] [] = u.filter (fun c => !(c == q)) := by
  intro u
  induction u with
  | nil => rfl
  | cons c rest ih =>
    by_cases hc : c = q
    · subst hc
      have hpre : ([c] : List Char).isPrefixOf (c :: rest) := by
        rw [List.isPrefixOf_iff_prefix]
        exact ⟨rest, rfl⟩
      show pyReplaceAux (rest.length + 1) (c :: rest) [c] [] = _
      simp only [pyReplaceAux]
      rw [if_pos ⟨List.cons_ne_nil c [], hpre⟩]
      simp only [List.length_cons, List.length_nil, List.drop_succ_cons, List.drop_zero,
        List.nil_append]
      show pyReplace rest [c] [] = _
      rw [ih]
      simp
    · have hpre : ¬([q] : List Char).isPrefixOf (c :: rest) := by
        rw [List.isPrefixOf_iff_prefix]
        intro ⟨t2, ht⟩
        simp at ht
        exact hc (ht.1.symm)
      rw [pyReplace_cons_neg c rest [q] [] (fun hcon => hpre hcon.2)]
      rw [ih]
      simp [hc]

theorem sendOpen_no_occurrence (i : List Char) (h : '"' ∉ i) :
    ¬("send \"".data <:+: i ++ ['\n', '"']) := by
  intro ⟨s, t, heq⟩
  have hcount : ∀ l1 l2 : List Char, List.count '"' (l1 ++ l2) =
      List.count '"' l1 + List.count '"' l2 := fun l1 l2 => List.count_append _ _ _
  have hsend : List.count '"' "send \"".data = 1 := by decide
  have hi : List.count '"' i = 0 := List.count_eq_zero.mpr h
  have hlhs : List.count '"' (i ++ ['\n', '"']) = 1 := by
    rw [hcount, hi]
    decide
  have hrhs : List.count '"' (s ++ "send \"".data ++ t) = 1 := by rw [heq, hlhs]
  rw [hcount, hcount, hsend] at hrhs
  have hs0 : List.count '"' s = 0 := by omega
  have ht0 : List.count '"' t = 0 := by omega
  have ht : t = [] := by
    by_contra htne
    have h1 : (s ++ "send \"".data ++ t).getLast? = t.getLast? :=
      List.getLast?_append_of_ne_nil _ htne
    have h2 : (s ++ "send \"".data ++ t).getLast? = some '"' := by
      rw [heq]
      have hsplit : i ++ ['\n', '"'] = (i ++ ['\n']) ++ ['"'] := by simp
      rw [hsplit, List.getLast?_concat]
    rw [h1] at h2
    have : '"' ∈ t := List.mem_of_getLast?_eq_some h2
    rw [List.count_eq_zero] at ht0
    exact ht0 this
  subst ht
  rw [List.append_nil] at heq
  have heq2 : (i ++ ['\n']) ++ ['"'] = (s ++ ['s', 'e', 'n', 'd', ' ']) ++ ['"'] := by
    rw [List.append_assoc, List.append_assoc]
    exact heq.symm
  have heq3 : i ++ ['\n'] = s ++ ['s', 'e', 'n', 'd', ' '] :=
    List.append_cancel_right heq2
  have h4 : (i ++ ['\n']).getLast? = some '\n' := List.getLast?_concat _
  have h5 : (s ++ ['s', 'e', 'n', 'd', ' ']).getLast? = some ' ' := by
    have : s ++ ['s', 'e', 'n', 'd', ' '] = (s ++ ['s', 'e', 'n', 'd']) ++ [' '] := by simp
    rw [this, List.getLast?_concat]
  rw [heq3, h5] at h4
  simp at h4

theorem strip_action (i : String) (hi : '"' ∉ i.data) :
    pyReplaceStr (pyReplaceStr ("send \"" ++ i ++ "\n\"") "send \"" "") "\"" "" = i ++ "\n" := by
  have hdata : ("send \"" ++ i ++ "\n\"").data = "send \"".data ++ (i.data ++ ['\n', '"']) := by
    simp [List.append_assoc]
  have hfst : pyReplaceStr ("send \"" ++ i ++ "\n\"") "send \"" "" = ⟨i.data ++ ['\n', '"']⟩ := by
    show (⟨pyReplace ("send \"" ++ i ++ "\n\"").data "send \"".data "".data⟩ : String) = _
    rw [hdata]
    show (⟨pyReplace ("send \"".data ++ (i.data ++ ['\n', '"'])) "send \"".data []⟩ : String) = _
    rw [pyReplace_headmatch _ _ _ (by decide)]
    rw [pyReplace_no_occ _ _ _ (sendOpen_no_occurrence i.data hi)]
    rfl
  rw [hfst]
  show (⟨pyReplace (i.data ++ ['\n', '"']) ['"'] []⟩ : String) = i ++ "\n"
  rw [pyReplace_single]
  rw [List.filter_append]
  rw [List.filter_eq_self.mpr (fun c hc => by
    simp only [Bool.not_eq_true']
    rw [beq_eq_false_iff_ne]
    intro hcq
    exact hi (hcq ▸ hc))]
  rfl

theorem addSteps_eq (sc : Scripter) (l : List (String × Option String)) :
    addSteps sc l = { sc with actions := (sc.actions ++
      l.map (fun pr => mkStep (effExpect sc.expect pr.2) pr.1 "sftp" "\"")) } := by
  induction l generalizing sc with
  | nil => simp [addSteps]
  | cons pr rest ih =>
    show addSteps (sc.add_step pr.1 pr.2) rest = _
    rw [ih]
    simp [Scripter.add_step]

theorem setperm_foldl (octal : PyVal) : ∀ (files : List String) (s : Scripter),
    files.foldl (fun s f =>
      let s := s.basic_step [PyVal.str "chmod", octal, PyVal.str f] Option.none
      if s.group.truthy then
        s.basic_step [PyVal.str "chgrp", s.group, PyVal.str f] Option.none
      else s) s
    = { s with actions := s.actions ++ permSteps s.expect s.group octal files } := by
  intro files
  induction files with
  | nil => intro s; simp [permSteps]
  | cons f rest ih =>
    intro s
    rw [List.foldl_cons]
    rw [ih]
    by_cases hg : s.group.truthy
    · simp only [Scripter.basic_step, Scripter.add_step, effExpect]
      simp [hg, permSteps, List.append_assoc]
    · rw [Bool.not_eq_true] at hg
      simp only [Scripter.basic_step, Scripter.add_step, effExpect]
      simp [hg, permSteps, List.append_assoc]

theorem findFail_cons_false (n : String) (x : PyVal) (rest : List (String × PyVal))
    (h : sftpCheckFails x = false) : findFail ((n, x) :: rest) = findFail rest := by
  cases x with
  | none => simp [findFail]
  | str s =>
    by_cases hc : pyIsNumeric s = false ∧ ¬s = ""
    · simp [sftpCheckFails, hc.1, hc.2] at h
    · simp [findFail, hc]
  | int k =>
    by_cases hc : pyIsNumeric (toString k) = false ∧ ¬toString k = ""
    · simp [sftpCheckFails, hc.1, hc.2] at h
    · simp [findFail, hc]

theorem findFail_cons_true (n : String) (x : PyVal) (rest : List (String × PyVal))
    (h : sftpCheckFails x = true) : ∃ m, findFail ((n, x) :: rest) = some m := by
  cases x with
  | none => simp [sftpCheckFails] at h
  | str s =>
    simp only [sftpCheckFails, Bool.and_eq_true, Bool.not_eq_true', decide_eq_true_eq] at h
    exact ⟨failMsg n s, by simp [findFail, h.1, h.2]⟩
  | int k =>
    simp only [sftpCheckFails, Bool.and_eq_true, Bool.not_eq_true', decide_eq_true_eq] at h
    exact ⟨failMsg n (toString k), by simp [findFail, h.1, h.2]⟩

theorem findFail_pair_none (n1 n2 : String) (v1 v2 : PyVal)
    (h1 : sftpCheckFails v1 = false) (h2 : sftpCheckFails v2 = false) :
    findFail [(n1, v1), (n2, v2)] = Option.none := by
  rw [findFail_cons_false _ _ _ h1, findFail_cons_false _ _ _ h2]
  rfl

theorem findFail_pair_some (n1 n2 : String) (v1 v2 : PyVal)
    (h : sftpCheckFails v1 = true ∨ sftpCheckFails v2 = true) :
    ∃ m, findFail [(n1, v1), (n2, v2)] = some m := by
  by_cases h1 : sftpCheckFails v1 = true
  · exact findFail_cons_true _ _ _ h1
  · rw [Bool.not_eq_true] at h1
    rw [findFail_cons_false _ _ _ h1]
    exact findFail_cons_true _ _ _ (h.resolve_left (by simp [h1]))

/-! ## Claim C1 -/

/-- C1: for every Scripter (built from the constructor arguments and any
sequence of `add_step` calls) whose connection mode is sftp or ssh, `run`
appends exactly one exit step — command `quit` for sftp, `exit` for ssh,
expecting the session prompt — and hands the interpreter the script
consisting of, in order: the opening boilerplate (`expect` heredoc header,
`set timeout -1`, the spawn directive `<mode> <username>@<site>`), the two
fixed authentication steps (expect `Password:` / send the password, then
expect `Passcode or option (1-3):` / send `1`), every accumulated step in
append order (the exit step last), and the closing end-of-file
boilerplate. -/
theorem C1_run_serialization (u p site mode : String) (g : PyVal)
    (l : List (String × Option String)) (h : mode = "sftp" ∨ mode = "ssh") :
    let sc := addSteps (mkScripter u p site mode g) l
    let endCmd := if mode = "sftp" then "quit" else "exit"
    let sc2 := sc.add_step endCmd Option.none
    sc.run = some (sc2,
      "expect << !\nset timeout -1\nspawn " ++ mode ++ " " ++ u ++ "@" ++ site ++ "\n" ++
      stepRepr (mkStep "Password:" p "sftp" "\"") "\n" ++
      stepRepr (mkStep "Passcode or option (1-3):" "1" "sftp" "\"") "\n" ++
      String.join (sc2.actions.map (fun st => stepRepr st "\n")) ++
      "expect eof\n!\n") ∧
    sc2.actions = sc.actions ++ [mkStep sc.expect endCmd "sftp" "\""] := by
  rcases h with rfl | rfl <;>
  · rw [addSteps_eq]
    simp only [Scripter.run, Scripter.full_command, Scripter.get_steps, Scripter.add_step,
      mkScripter, effExpect, String.reduceEq, reduceIte, List.isEmpty_cons, Bool.false_eq_true,
      if_false, List.isEmpty_nil, if_true, List.map_cons, List.map_nil, String.join,
      List.isEmpty_eq_true, List.append_eq_nil, List.cons_ne_self, List.foldl_cons,
      List.foldl_nil, List.append_assoc, List.singleton_append, and_false]
    refine ⟨?_, by simp⟩
    simp only [stepRepr, ← String.append_assoc]
    simp

/-- C1 witness: the theorem applied to a concrete sftp scripter with one
accumulated `pwd` step, with the serialized script spelled out literally. -/
theorem C1_run_serialization_witness :
    let sc := addSteps (mkScripter "alice" "pw" "hpc.edu" "sftp" PyVal.none)
      [("pwd", Option.none)]
    let sc2 := sc.add_step "quit" Option.none
    sc.run = some (sc2,
      "expect << !\nset timeout -1\nspawn sftp alice@hpc.edu\nexpect \"Password:\"\nsend \"pw\n\"\nexpect \"Passcode or option (1-3):\"\nsend \"1\n\"\nexpect \"sftp>\"\nsend \"pwd\n\"\nexpect \"sftp>\"\nsend \"quit\n\"\nexpect eof\n!\n") ∧
    sc2.actions = sc.actions ++ [mkStep "sftp>" "quit" "sftp" "\""] :=
  C1_run_serialization "alice" "pw" "hpc.edu" "sftp" PyVal.none [("pwd", Option.none)]
    (Or.inl rfl)

/-! ## Claim C2 -/

/-- C2 counterexample: with file `data.csv` and outdir `remote/dir` in sftp
mode, `put` appends three steps whose commands are `mkdir remote/dir`,
`cd remote/dir`, and `put data.csv \n` — the transfer command carries a
trailing space and newline (`basic_step` joins a literal newline argument),
so the step sequence the claim predicts (third command exactly
`put data.csv`) is not produced. -/
theorem C2_put_counterexample :
    ((mkScripter "alice" "pw" "hpc.edu" "sftp" PyVal.none).put "data.csv" (some "remote/dir")
        Option.none [] false).getSt.actions.map Step.action =
      ["send \"mkdir remote/dir\n\"", "send \"cd remote/dir\n\"", "send \"put data.csv \n\n\""] ∧
    ((mkScripter "alice" "pw" "hpc.edu" "sftp" PyVal.none).put "data.csv" (some "remote/dir")
        Option.none [] false).getSt.actions.map Step.action ≠
      ["send \"mkdir remote/dir\n\"", "send \"cd remote/dir\n\"", "send \"put data.csv\n\""] := by
  exact ⟨by decide, by decide⟩

/-- C2 (amended): for every Scripter in sftp mode and nonempty file and
outdir, `put(file, outdir=outdir)` appends exactly three steps, in order: a
remote directory-creation step (`mkdir <outdir>`), a directory-change step
(`cd <outdir>`), then the transfer step, whose command is
`put <file> \n` — `put <file>` followed by the space-joined trailing
newline argument.  More generally, every transfer operation given the
destination directory — any `trans_type`, file, `local` flag, rename
target and option list — appends exactly two steps: the directory-change
step (`cd <outdir>`, or `lcd <outdir>` when local) immediately followed by
the transfer step, whose command space-joins the truthy transfer
arguments; `get` delegates to `transfer` with `local=True` and produces
that same shape. -/
theorem C2_put_three_steps (sc : Scripter) (file outdir t f2 : String) (lcl : Bool)
    (nn : Option String) (opts : List String)
    (hm : sc.mode = "sftp") (ho : outdir ≠ "") (hf : file ≠ "") :
    sc.put file (some outdir) Option.none [] false =
      PyResult.ok { sc with actions := (sc.actions ++
        [mkStep sc.expect ("mkdir " ++ outdir) "sftp" "\"",
         mkStep sc.expect ("cd " ++ outdir) "sftp" "\"",
         mkStep sc.expect ("put " ++ file ++ " \n") "sftp" "\""]) } ∧
    sc.transfer t f2 (some outdir) lcl nn opts =
      PyResult.ok { sc with actions := (sc.actions ++
        [mkStep sc.expect ((if lcl then "lcd " else "cd ") ++ outdir) "sftp" "\"",
         mkStep sc.expect (basicCmd (if opts = []
             then [PyVal.str t, PyVal.str f2, optVal nn, PyVal.str "\n"]
             else [PyVal.str t, PyVal.str ("-" ++ String.join opts), PyVal.str f2,
               optVal nn, PyVal.str "\n"])) "sftp" "\""]) } ∧
    sc.get f2 (some outdir) nn opts =
      PyResult.ok { sc with actions := (sc.actions ++
        [mkStep sc.expect ("lcd " ++ outdir) "sftp" "\"",
         mkStep sc.expect (basicCmd (if opts = []
             then [PyVal.str "get", PyVal.str f2, optVal nn, PyVal.str "\n"]
             else [PyVal.str "get", PyVal.str ("-" ++ String.join opts), PyVal.str f2,
               optVal nn, PyVal.str "\n"])) "sftp" "\""]) } := by
  have hne : ∀ s : String, ("-" ++ s) ≠ "" := by
    intro s hcon
    have hd : ("-" ++ s).data = "".data := congrArg String.data hcon
    simp at hd
  have hdash : PyVal.truthy (PyVal.str ("-" ++ String.join opts)) = true := by
    simp [PyVal.truthy, hne]
  refine ⟨?_, ?_, ?_⟩
  · simp [Scripter.put, Scripter.transfer, Scripter.cwd, Scripter.basic_step, Scripter.add_step,
      basicCmd, joinSpace, effExpect, outdirTruthy, optVal, PyVal.truthy, PyVal.render,
      hm, ho, hf, String.append_assoc]
  · by_cases hop : opts = [] <;> cases lcl <;>
      simp [Scripter.transfer, Scripter.cwd, Scripter.basic_step, Scripter.add_step,
        basicCmd, joinSpace, effExpect, outdirTruthy, PyVal.truthy, PyVal.render,
        hne, hdash, hm, ho, hop, String.append_assoc]
  · by_cases hop : opts = [] <;>
      simp [Scripter.get, Scripter.transfer, Scripter.cwd, Scripter.basic_step,
        Scripter.add_step, basicCmd, joinSpace, effExpect, outdirTruthy, PyVal.truthy,
        PyVal.render, hne, hdash, hm, ho, hop, String.append_assoc]

/-- C2 witness: the amended theorem applied at file `data.csv`, outdir
`remote/dir`, and the transfer operation `get b.txt` with `local=True`, no
rename target and no options. -/
theorem C2_put_three_steps_witness :
    let sc := mkScripter "alice" "pw" "hpc.edu" "sftp" PyVal.none
    (sc.put "data.csv" (some "remote/dir") Option.none [] false =
      PyResult.ok { sc with actions := (sc.actions ++
        [mkStep sc.expect ("mkdir " ++ "remote/dir") "sftp" "\"",
         mkStep sc.expect ("cd " ++ "remote/dir") "sftp" "\"",
         mkStep sc.expect ("put " ++ "data.csv" ++ " \n") "sftp" "\""]) }) ∧
    (sc.transfer "get" "b.txt" (some "remote/dir") true Option.none [] =
      PyResult.ok { sc with actions := (sc.actions ++
        [mkStep sc.expect ((if true then "lcd " else "cd ") ++ "remote/dir") "sftp" "\"",
         mkStep sc.expect (basicCmd (if ([] : List String) = []
             then [PyVal.str "get", PyVal.str "b.txt", optVal Option.none, PyVal.str "\n"]
             else [PyVal.str "get", PyVal.str ("-" ++ String.join []), PyVal.str "b.txt",
               optVal Option.none, PyVal.str "\n"])) "sftp" "\""]) }) ∧
    (sc.get "b.txt" (some "remote/dir") Option.none [] =
      PyResult.ok { sc with actions := (sc.actions ++
        [mkStep sc.expect ("lcd " ++ "remote/dir") "sftp" "\"",
         mkStep sc.expect (basicCmd (if ([] : List String) = []
             then [PyVal.str "get", PyVal.str "b.txt", optVal Option.none, PyVal.str "\n"]
             else [PyVal.str "get", PyVal.str ("-" ++ String.join []), PyVal.str "b.txt",
               optVal Option.none, PyVal.str "\n"])) "sftp" "\""]) }) :=
  C2_put_three_steps (mkScripter "alice" "pw" "hpc.edu" "sftp" PyVal.none)
    "data.csv" "remote/dir" "get" "b.txt" true Option.none []
    rfl (by decide) (by decide)

/-! ## Claim C5 -/

/-- C5: for every Scripter and nonempty directory, `cwd(dir, local=True)`
outside sftp mode raises the unsupported-operation exception and appends
nothing; with `local=False` it appends exactly one step whose command is
`cd <dir>`; in sftp mode with `local=True` it appends exactly one step
whose command is `lcd <dir>`. -/
theorem C5_cwd_behavior (sc : Scripter) (dir : String) (hd : dir ≠ "") :
    (sc.mode ≠ "sftp" →
      sc.cwd dir true = PyResult.err (PyErr.exception "lcd only works with sftp") sc) ∧
    sc.cwd dir false = PyResult.ok { sc with actions :=
      (sc.actions ++ [mkStep sc.expect ("cd " ++ dir) "sftp" "\""]) } ∧
    (sc.mode = "sftp" →
      sc.cwd dir true = PyResult.ok { sc with actions :=
        (sc.actions ++ [mkStep sc.expect ("lcd " ++ dir) "sftp" "\""]) }) := by
  refine ⟨fun hm => ?_, ?_, fun hm => ?_⟩
  · simp [Scripter.cwd, hm]
  · simp [Scripter.cwd, Scripter.basic_step, Scripter.add_step, basicCmd, joinSpace,
      effExpect, PyVal.truthy, PyVal.render, hd]
  · simp [Scripter.cwd, hm, Scripter.basic_step, Scripter.add_step, basicCmd, joinSpace,
      effExpect, PyVal.truthy, PyVal.render, hd]

/-- C5 witness: the theorem applied to a concrete ssh-mode scripter (for
the error case) and to a concrete sftp-mode scripter, at directory
`data`. -/
theorem C5_cwd_behavior_witness :
    let scssh := mkScripter "alice" "pw" "hpc.edu" "ssh" PyVal.none
    ((scssh.mode ≠ "sftp" →
      scssh.cwd "data" true = PyResult.err (PyErr.exception "lcd only works with sftp") scssh) ∧
    scssh.cwd "data" false = PyResult.ok { scssh with actions :=
      (scssh.actions ++ [mkStep scssh.expect ("cd " ++ "data") "sftp" "\""]) } ∧
    (scssh.mode = "sftp" →
      scssh.cwd "data" true = PyResult.ok { scssh with actions :=
        (scssh.actions ++ [mkStep scssh.expect ("lcd " ++ "data") "sftp" "\""]) })) :=
  C5_cwd_behavior (mkScripter "alice" "pw" "hpc.edu" "ssh" PyVal.none) "data" (by decide)

/-! ## Claim C10 -/

/-- C10: `is_empty` returns `True` exactly when the accumulated step
sequence is nonempty (the opposite of its name and docstring); right after
construction, and after `clear`, it returns `False`. -/
theorem C10_is_empty_inverted (sc : Scripter) (u p site mode : String) (g : PyVal) :
    (sc.is_empty = true ↔ sc.actions ≠ []) ∧
    sc.clear.is_empty = false ∧
    (mkScripter u p site mode g).is_empty = false := by
  refine ⟨?_, ?_, ?_⟩ <;>
    simp [Scripter.is_empty, Scripter.clear, mkScripter]

/-! ## Claim C4 -/

/-- C4 counterexample: for an ssh-mode scripter, `put("f.txt", outdir="d")`
raises the unsupported-operation error but does NOT leave the step
sequence unchanged — the `mkdir d` step has already been appended when the
error escapes. -/
theorem C4_put_counterexample :
    ((mkScripter "alice" "pw" "hpc.edu" "ssh" PyVal.none).put "f.txt" (some "d")
        Option.none [] false).isErr = true ∧
    ((mkScripter "alice" "pw" "hpc.edu" "ssh" PyVal.none).put "f.txt" (some "d")
        Option.none [] false).getSt.actions.map Step.action = ["send \"mkdir d\n\""] ∧
    ((mkScripter "alice" "pw" "hpc.edu" "ssh" PyVal.none).put "f.txt" (some "d")
        Option.none [] false).getSt.actions ≠
      (mkScripter "alice" "pw" "hpc.edu" "ssh" PyVal.none).actions := by
  exact ⟨by decide, by decide, by decide⟩

/-- C4 (amended): outside sftp mode, `transfer`, `get` and `put` all raise
the unsupported-operation exception; `transfer` and `get` leave the
accumulated sequence unchanged, and so does `put` without an outdir, but
`put` with a truthy outdir has already appended the `mkdir` step when the
error escapes. -/
theorem C4_nonsftp_transfer_raises (sc : Scripter) (hm : sc.mode ≠ "sftp")
    (t file : String) (outdir : Option String) (lcl : Bool)
    (nn : Option String) (opts : List String) (flag : Bool) :
    sc.transfer t file outdir lcl nn opts =
      PyResult.err (PyErr.exception
        ("\x27" ++ t ++ "\x27 can only be used with mode=\x27sftp\x27")) sc ∧
    sc.get file outdir nn opts =
      PyResult.err (PyErr.exception
        "\x27get\x27 can only be used with mode=\x27sftp\x27") sc ∧
    sc.put file outdir nn opts flag =
      PyResult.err (PyErr.exception "\x27put\x27 can only be used with mode=\x27sftp\x27")
        (if outdirTruthy outdir then sc.add_step ("mkdir " ++ outdir.getD "") Option.none
         else sc) ∧
    (if outdirTruthy outdir then sc.add_step ("mkdir " ++ outdir.getD "") Option.none
     else sc).actions =
      sc.actions ++ (if outdirTruthy outdir
        then [mkStep sc.expect ("mkdir " ++ outdir.getD "") "sftp" "\""] else []) := by
  refine ⟨?_, ?_, ?_, ?_⟩
  · simp [Scripter.transfer, hm]
  · simp [Scripter.get, Scripter.transfer, hm]
  · by_cases ho : outdirTruthy outdir <;>
      simp [Scripter.put, Scripter.transfer, Scripter.add_step, ho, hm]
  · by_cases ho : outdirTruthy outdir <;> simp [Scripter.add_step, effExpect, ho]

/-- C4 witness: the amended theorem applied to a concrete ssh-mode
scripter, transferring `f.txt` with outdir `d`. -/
theorem C4_nonsftp_transfer_raises_witness :
    let sc := mkScripter "alice" "pw" "hpc.edu" "ssh" PyVal.none
    sc.transfer "put" "f.txt" (some "d") false Option.none [] =
      PyResult.err (PyErr.exception
        ("\x27" ++ "put" ++ "\x27 can only be used with mode=\x27sftp\x27")) sc ∧
    sc.get "f.txt" (some "d") Option.none [] =
      PyResult.err (PyErr.exception
        "\x27get\x27 can only be used with mode=\x27sftp\x27") sc ∧
    sc.put "f.txt" (some "d") Option.none [] false =
      PyResult.err (PyErr.exception "\x27put\x27 can only be used with mode=\x27sftp\x27")
        (if outdirTruthy (some "d") then sc.add_step ("mkdir " ++ (some "d").getD "") Option.none
         else sc) ∧
    (if outdirTruthy (some "d") then sc.add_step ("mkdir " ++ (some "d").getD "") Option.none
     else sc).actions =
      sc.actions ++ (if outdirTruthy (some "d")
        then [mkStep sc.expect ("mkdir " ++ (some "d").getD "") "sftp" "\""] else []) :=
  C4_nonsftp_transfer_raises (mkScripter "alice" "pw" "hpc.edu" "ssh" PyVal.none)
    (by decide) "put" "f.txt" (some "d") false Option.none [] false

/-! ## Claim C3 -/

/-- C3 counterexample: in sftp mode, with group `"100"` (a numeric string)
and octal `-1` (an integer), `set_permissions` raises a `TypeError` —
the integer is rendered as the string `-1`, which fails `isnumeric()` —
contradicting the claim that any pair of numeric-string or integer values
is accepted. -/
theorem C3_set_permissions_counterexample :
    (mkScripter "alice" "pw" "hpc.edu" "sftp" PyVal.none).set_permissions ["f.txt"]
        (PyVal.str "100") (PyVal.int (-1)) =
      PyResult.err
        (PyErr.typeError
          "Invalid input (-1, type:<class \x27str\x27>) for octal. Numeric values must be used over sftp.")
        { mkScripter "alice" "pw" "hpc.edu" "sftp" PyVal.none with group := PyVal.str "100" } := by
  decide

/-- C3 (amended): in sftp mode, `set_permissions` raises a `TypeError`
exactly when the effective group or the octal value — integers first
rendered as decimal strings — is a nonempty non-numeric string (so
negative integers are rejected while `None` or an empty-string group
passes unchecked), leaving the step sequence unchanged; when both values
pass the check it completes, appending for each file a `chmod` step and,
when the effective group is truthy, a `chgrp` step. -/
theorem C3_set_permissions_validation (sc : Scripter) (files : List String)
    (grp octal : PyVal) (hm : sc.mode = "sftp") :
    (sftpCheckFails (effGroup sc.group grp) = true ∨ sftpCheckFails octal = true →
      ∃ m, sc.set_permissions files grp octal =
        PyResult.err (PyErr.typeError m) { sc with group := effGroup sc.group grp } ∧
        ({ sc with group := effGroup sc.group grp } : Scripter).actions = sc.actions) ∧
    (sftpCheckFails (effGroup sc.group grp) = false → sftpCheckFails octal = false →
      sc.set_permissions files grp octal = PyResult.ok
        { sc with group := effGroup sc.group grp, actions :=
          (sc.actions ++ permSteps sc.expect (effGroup sc.group grp) octal files) }) := by
  have heff : (if (!sc.group.truthy ∧ grp ≠ PyVal.str "") then { sc with group := grp } else sc)
      = { sc with group := effGroup sc.group grp } := by
    by_cases hc : (sc.group.truthy = false ∧ ¬grp = PyVal.str "")
    · simp [effGroup, hc]
    · simp [effGroup, hc]
  constructor
  · intro h
    obtain ⟨m, hr⟩ := findFail_pair_some "group" "octal" (effGroup sc.group grp) octal h
    refine ⟨m, ?_, rfl⟩
    simp only [Scripter.set_permissions, heff]
    simp [hm, hr]
  · intro h1 h2
    have hr := findFail_pair_none "group" "octal" _ _ h1 h2
    simp only [Scripter.set_permissions, heff]
    simp [hm, hr, setperm_foldl]

/-- C3 witness: the amended theorem applied in sftp mode with the numeric
group `"100"` and the default octal `"0664"`, where the check passes and
the chmod and chgrp steps are appended. -/
theorem C3_set_permissions_validation_witness :
    let sc := mkScripter "alice" "pw" "hpc.edu" "sftp" PyVal.none
    (sftpCheckFails (effGroup sc.group (PyVal.str "100")) = true ∨
        sftpCheckFails (PyVal.str "0664") = true →
      ∃ m, sc.set_permissions ["f.txt"] (PyVal.str "100") (PyVal.str "0664") =
        PyResult.err (PyErr.typeError m)
          { sc with group := effGroup sc.group (PyVal.str "100") } ∧
        ({ sc with group := effGroup sc.group (PyVal.str "100") } : Scripter).actions =
          sc.actions) ∧
    (sftpCheckFails (effGroup sc.group (PyVal.str "100")) = false →
      sftpCheckFails (PyVal.str "0664") = false →
      sc.set_permissions ["f.txt"] (PyVal.str "100") (PyVal.str "0664") = PyResult.ok
        { sc with group := effGroup sc.group (PyVal.str "100"), actions :=
          (sc.actions ++ permSteps sc.expect (effGroup sc.group (PyVal.str "100"))
            (PyVal.str "0664") ["f.txt"]) }) :=
  C3_set_permissions_validation (mkScripter "alice" "pw" "hpc.edu" "sftp" PyVal.none)
    ["f.txt"] (PyVal.str "100") (PyVal.str "0664") rfl

/-! ## Claim C6 -/

/-- C6: constructing a Scripter with a config path whose file exists and
holds the lines `username=alice` and `password=secret`, and no directly
supplied username or password, resolves the username to `alice` and the
password to `secret` with a normal outcome — no interactive prompt, no
write-back. -/
theorem C6_config_credentials (fuel : Nat) (fs : String → Option (List String))
    (home p : String) (ht : tildeInParents p = false)
    (hf : fs p = some ["username=alice", "password=secret"]) :
    getCredentials (fuel + 2) fs home
      ⟨PyVal.none, PyVal.none, PyVal.none, PyVal.none, some p⟩ true false false
      = CredOutcome.ok
          ⟨PyVal.str "alice", PyVal.str "secret", PyVal.none, PyVal.none, some p⟩ [] := by
  have hread : readCredentials ⟨PyVal.none, PyVal.none, PyVal.none, PyVal.none, some p⟩
      ["username=alice", "password=secret"] =
      ⟨PyVal.str "alice", PyVal.str "secret", PyVal.none, PyVal.none, some p⟩ := rfl
  show getCredentials (Nat.succ (Nat.succ fuel)) fs home
      ⟨PyVal.none, PyVal.none, PyVal.none, PyVal.none, some p⟩ true false false = _
  simp only [getCredentials, ht, Bool.false_eq_true, if_false, hf, hread, writeCheck,
    PyVal.truthy, Bool.not_false, Bool.not_true, Bool.or_self, if_true,
    Option.isNone_some, Bool.and_false, Bool.false_or, Option.getD_some]
  simp [hf]

/-- C6 witness: the theorem applied to a concrete one-file file system
holding the two credential lines at path `cfg`. -/
theorem C6_config_credentials_witness :
    getCredentials (0 + 2)
      (fun q => if q = "cfg" then some ["username=alice", "password=secret"] else Option.none)
      "/home/u" ⟨PyVal.none, PyVal.none, PyVal.none, PyVal.none, some "cfg"⟩ true false false
      = CredOutcome.ok
          ⟨PyVal.str "alice", PyVal.str "secret", PyVal.none, PyVal.none, some "cfg"⟩ [] :=
  C6_config_credentials 0
    (fun q => if q = "cfg" then some ["username=alice", "password=secret"] else Option.none)
    "/home/u" "cfg" (by decide) rfl

/-! ## Claim C7 -/

/-- C7 counterexample: with the full credential set `u`, `p`, `g`, `s`
present and a missing config file `dir/cfg`, resolution writes back only
the two lines `username=u` and `password=p` — no line mentions the group
or the site, so the "full credential set" is not written. -/
theorem C7_group_site_not_written :
    getCredentials 1 (fun _ => Option.none) "/h"
      ⟨PyVal.str "u", PyVal.str "p", PyVal.str "g", PyVal.str "s", some "dir/cfg"⟩
      true false false =
    CredOutcome.ok ⟨PyVal.str "u", PyVal.str "p", PyVal.str "g", PyVal.str "s", some "dir/cfg"⟩
      [("dir/cfg", ["username=u", "password=p"])] ∧
    (["username=u", "password=p"].all
      (fun l => !(strIn "group" l) && !(strIn "site" l))) = true := by
  exact ⟨by decide, by decide⟩

/-- C7 (amended): whenever the resolved config file does not exist (with
saving on) or overwrite is requested, and the username and password are
present, credential resolution writes back exactly the two lines
`username=<username>` and `password=<password>` (creating parent
directories first); the group and site are not written. -/
theorem C7_write_on_missing (fuel : Nat) (fs : String → Option (List String))
    (home p : String) (st : CredST) (save ow headless : Bool)
    (hc : st.config = some p) (ht : tildeInParents p = false)
    (hu : st.username.truthy = true) (hp : st.password.truthy = true)
    (hw : ((save && (fs p).isNone) || ow) = true) :
    getCredentials (fuel + 1) fs home st save ow headless =
      CredOutcome.ok { st with config := some p }
        [(p, ["username=" ++ st.username.render, "password=" ++ st.password.render])] := by
  show getCredentials (Nat.succ fuel) fs home st save ow headless = _
  simp only [getCredentials, hc, ht, Bool.false_eq_true, if_false]
  simp [hu, hp, writeCheck, hw, credLines]

/-- C7 witness: the amended theorem applied to the concrete credential set
`u`, `p`, `g`, `s` with missing config file `dir/cfg`. -/
theorem C7_write_on_missing_witness :
    getCredentials (0 + 1) (fun _ => Option.none) "/h"
      ⟨PyVal.str "u", PyVal.str "p", PyVal.str "g", PyVal.str "s", some "dir/cfg"⟩
      true false false =
      CredOutcome.ok
        { (⟨PyVal.str "u", PyVal.str "p", PyVal.str "g", PyVal.str "s",
            some "dir/cfg"⟩ : CredST) with config := some "dir/cfg" }
        [("dir/cfg", ["username=" ++ (PyVal.str "u").render,
          "password=" ++ (PyVal.str "p").render])] :=
  C7_write_on_missing 0 (fun _ => Option.none) "/h" "dir/cfg"
    ⟨PyVal.str "u", PyVal.str "p", PyVal.str "g", PyVal.str "s", some "dir/cfg"⟩
    true false false rfl (by decide) (by decide) (by decide) (by decide)

/-! ## Claim C9 -/

/-- C9: at the config path `a/~/b` — a `~` component not in the leading
position — credential resolution does NOT raise the configuration error:
`Path("~") in parents` only detects a leading `~`, so the path passes
through silently and unchanged (the `Config path looks weird` branch is
dead code); a leading `~` (`~/cfg`) is expanded to the home directory
without raising, as the claim's second half says. -/
theorem C9_nonleading_tilde_not_rejected :
    getCredentials 1 (fun _ => some []) "/home/u"
      ⟨PyVal.str "u", PyVal.str "p", PyVal.none, PyVal.none, some "a/~/b"⟩ true false false =
      CredOutcome.ok
        ⟨PyVal.str "u", PyVal.str "p", PyVal.none, PyVal.none, some "a/~/b"⟩ [] ∧
    tildeInParents "a/~/b" = false ∧
    getCredentials 1 (fun _ => some []) "/home/u"
      ⟨PyVal.str "u", PyVal.str "p", PyVal.none, PyVal.none, some "~/cfg"⟩ true false false =
      CredOutcome.ok
        ⟨PyVal.str "u", PyVal.str "p", PyVal.none, PyVal.none, some "/home/u/cfg"⟩ [] := by
  exact ⟨by decide, by decide, by decide⟩

/-- The raise guarding "weird" config paths is unreachable: whenever
`Path("~")` is among the parents, the normalized path string starts with
`~`, so the error branch can never fire. -/
theorem tilde_guard_unreachable (p : String) (h : tildeInParents p = true) :
    (pathStr p).front = '~' := by
  rw [tildeInParents, Bool.and_eq_true] at h
  obtain ⟨h1, h2⟩ := h
  rw [Bool.not_eq_true'] at h1
  rcases hp : pathParts p with _ | ⟨a, _ | ⟨b, t⟩⟩
  · rw [hp] at h2; simp at h2
  · rw [hp] at h2; simp at h2
  · rw [hp] at h2
    by_cases ha : a = "~"
    · subst ha
      simp only [pathStr, hp, h1, Bool.false_eq_true, if_false, List.isEmpty_cons,
        joinSlash]
      rfl
    · simp [ha] at h2

/-! ## Claim C8 -/

/-- C8 counterexample: a single appended `pwd` step previews as the line
`pwd\n` — the newline embedded in the `send` directive is kept — not as
the bare command `pwd` the claim predicts. -/
theorem C8_preview_counterexample :
    (addSteps (mkScripter "alice" "pw" "hpc.edu" "sftp" PyVal.none)
      [("pwd", Option.none)]).get_actions = ["pwd\n"] ∧
    (["pwd\n"] : List String) ≠ ["pwd"] := by
  exact ⟨by decide, by decide⟩

/-- C8 (amended): for every sequence of builder calls whose commands
contain no double-quote character, `get_actions` yields exactly one entry
per appended step, in append order, namely the step's command with the
`send "` markup removed but with the trailing newline of the `send`
directive retained; `preview_steps` prints these lines paired with their
indices.  (A double quote inside a command would additionally be deleted
by the markup-stripping `replace`.) -/
theorem C8_preview_lines (u p site mode : String) (g : PyVal)
    (l : List (String × Option String)) (h : ∀ pr ∈ l, '"' ∉ pr.1.data) :
    (addSteps (mkScripter u p site mode g) l).get_actions =
      l.map (fun pr => pr.1 ++ "\n") ∧
    (addSteps (mkScripter u p site mode g) l).preview_steps =
      (l.map (fun pr => pr.1 ++ "\n")).enum := by
  have hga : (addSteps (mkScripter u p site mode g) l).get_actions =
      l.map (fun pr => pr.1 ++ "\n") := by
    rw [addSteps_eq]
    simp only [Scripter.get_actions, mkScripter, List.nil_append, List.map_map]
    apply List.map_congr_left
    intro pr hpr
    simp only [Function.comp_apply, mkStep]
    exact strip_action pr.1 (h pr hpr)
  exact ⟨hga, by rw [Scripter.preview_steps, hga]⟩

/-- C8 witness: the amended theorem applied to the single builder call
appending `pwd`. -/
theorem C8_preview_lines_witness :
    (addSteps (mkScripter "alice" "pw" "hpc.edu" "sftp" PyVal.none)
      [("pwd", Option.none)]).get_actions =
      ([("pwd", (Option.none : Option String))].map (fun pr => pr.1 ++ "\n")) ∧
    (addSteps (mkScripter "alice" "pw" "hpc.edu" "sftp" PyVal.none)
      [("pwd", Option.none)]).preview_steps =
      ([("pwd", (Option.none : Option String))].map (fun pr => pr.1 ++ "\n")).enum :=
  C8_preview_lines "alice" "pw" "hpc.edu" "sftp" PyVal.none [("pwd", Option.none)]
    (by decide)
